import Mathlib

/-!
# Verification of the club-website backend's validation and data-integrity pipeline

Shallow embedding of `backend/app` (FastAPI + SQLAlchemy service) in Lean 4:

* `app/utils/validation.py` — `sanitize_string` (strict sanitizer);
* `app/security.py`         — `verify_password`;
* `app/services/file_service.py` — `validate_pdf_file`, `validate_pdf_magic_bytes`,
  `save_pdf_file`;
* `app/api/registrations.py` — `create_registration`;
* `app/api/events.py`        — `get_events`, `get_event`, `create_event`,
  `update_event`, `delete_event`;
* `app/api/hackathon_teams.py` — `create_hackathon_team` (with the
  `HackathonTeamCreate` pydantic schema of `app/schemas.py`);
* `app/api/resources.py`     — `create_resource` (upload pipeline),
  `update_resource`, `delete_resource` (file/row operation ordering).

The database is modelled as lists of rows; SQLAlchemy commits apply the
pending row to the state, and an exception raised before `db.commit()`
leaves the persisted state unchanged (the session is discarded without
commit).  Unique constraints of `app/models.py` are modelled by making
`db.commit()` fail with an `IntegrityError` outcome exactly when the
inserted rows collide with existing rows on the constrained columns.
-/

namespace Backend

/-! ## Input sanitizer (`app/utils/validation.py`)

`sanitize_string` calls `bleach.clean(input_str, tags=[], attributes={},
strip=True)`, then `str.strip()`, then truncates to `max_length` when
`max_length` is truthy and the cleaned string is longer.

`bleach.clean` is a third-party library; we model its empty-allow-list,
`strip=True` mode as markup removal over the character list: every segment
starting at a `<` that is closed by a later `>` is dropped, and a `<` with
no subsequent `>` is left in place (no tag can form from it).  Character-
reference escaping is not modelled; the inputs used in the theorems below
contain no ampersands, so the model and the library agree on them. -/

/-- One pass of markup removal: drop each `<`…`>` segment, keep a `<` that
has no matching `>` (model of `bleach.clean(_, tags=[], strip=True)`). -/
def cleanChars : List Char → List Char
  | [] => []
  | c :: rest =>
    if c = '<' then
      if rest.contains '>' then
        cleanChars ((rest.dropWhile (fun d => d ≠ '>')).drop 1)
      else c :: rest
    else c :: cleanChars rest
termination_by l => l.length
decreasing_by
  · simp only [List.length_cons]
    have h1 : (List.dropWhile (fun d => d ≠ '>') rest).length ≤ rest.length :=
      (List.dropWhile_suffix _).length_le
    have h2 : (((List.dropWhile (fun d => d ≠ '>') rest)).drop 1).length =
        (List.dropWhile (fun d => d ≠ '>') rest).length - 1 := List.length_drop _ _
    omega
  · simp only [List.length_cons]; omega

/-- Python `str.strip()` on a character list: drop whitespace from the
front, then from the back. -/
def stripChars (l : List Char) : List Char :=
  (l.dropWhile Char.isWhitespace).rdropWhile Char.isWhitespace

/-- `sanitize_string` from `app/utils/validation.py` on character lists.
`max_length = none` models passing `None`; Python's `if max_length and …`
treats `0` as falsy, hence the `m ≠ 0` guard. -/
def sanitizeChars (input : List Char) (max_length : Option Nat) : List Char :=
  let cleaned := cleanChars input
  let cleaned := stripChars cleaned
  match max_length with
  | some m => if m ≠ 0 ∧ cleaned.length > m then cleaned.take m else cleaned
  | none => cleaned

/-- `sanitize_string` on Lean strings (the form the endpoints call). -/
def sanitize_string (input : String) (max_length : Option Nat) : String :=
  (sanitizeChars input.toList max_length).asString

/-- A character list contains no removable markup: no `<` is followed by a
later `>`.  `cleanChars` is the identity on such lists, and produces such
lists. -/
def tagFree : List Char → Bool
  | [] => true
  | c :: rest => if c = '<' then !(rest.contains '>') else tagFree rest

/-! ## Data model (`app/models.py`) and wire-level errors (`app/utils/errors.py`)

Rows carry the columns the endpoints inspect or write.  `id` columns are
UUIDs in the source; they are opaque identifiers, modelled as `Nat`.
Dates are modelled as `Int` day numbers (only `<` between dates is used).
Non-2xx outcomes carry the HTTP status and the machine code that
`app/utils/errors.py` together with the exception handlers of
`app/main.py` put on the wire (`HTTPException`s raised with a bare status
are mapped through `error_code_map`; `400` is absent from that map and
falls back to `"HTTP_ERROR"`). -/

inductive EventType
  | WORKSHOP | HACKATHON | SEMINAR | BOOTCAMP | LECTURE
deriving DecidableEq, Repr

inductive ResourceLevel
  | BEGINNER | INTERMEDIATE | ADVANCED
deriving DecidableEq, Repr

structure EventRow where
  id : Nat
  title : String
  etype : EventType
  date : Int
  description : Option String
  is_active : Bool
deriving DecidableEq, Repr

structure RegistrationRow where
  id : Nat
  event_id : Nat
  operative_name : String
  moodle_id : String
deriving DecidableEq, Repr

structure ResourceRow where
  id : Nat
  title : String
  level : ResourceLevel
  file_url : String
  file_size : Option Nat
deriving DecidableEq, Repr

structure TeamRow where
  id : Nat
  event_name : String
  team_name : String
deriving DecidableEq, Repr

structure TeamMemberRow where
  id : Nat
  team_id : Nat
  name : String
  email : String
  moodle_id : String
  roll_no : String
  division : String
  department : String
  year : String
  mobile : String
  is_leader : Bool
deriving DecidableEq, Repr

/-- Persistent state: one list of committed rows per table. -/
structure DB where
  events : List EventRow
  registrations : List RegistrationRow
  resources : List ResourceRow
  teams : List TeamRow
  team_members : List TeamMemberRow
deriving DecidableEq, Repr

/-- A non-2xx response: HTTP status, machine code, human message
(the `{error: {code, message}}` envelope of `app/main.py`). -/
structure ErrorOut where
  status : Nat
  code : String
  message : String
deriving DecidableEq, Repr

/-- `NotFoundError` of `app/utils/errors.py` (always raised with an id in
the endpoints under study). -/
def notFoundError (resource rid : String) : ErrorOut :=
  ⟨404, "NOT_FOUND", resource ++ " not found (ID: " ++ rid ++ ")"⟩

/-- `ConflictError` of `app/utils/errors.py`. -/
def conflictError (message : String) : ErrorOut :=
  ⟨409, "CONFLICT", message⟩

/-- `ValidationError` of `app/utils/errors.py`. -/
def validationError (message : String) : ErrorOut :=
  ⟨422, "VALIDATION_ERROR", message⟩

/-- A bare `HTTPException(400, detail)` rendered by the
`StarletteHTTPException` handler of `app/main.py`: `400` is not in
`error_code_map`, so the machine code is the `"HTTP_ERROR"` fallback. -/
def badRequestError (message : String) : ErrorOut :=
  ⟨400, "HTTP_ERROR", message⟩

/-- A bare `HTTPException(413, detail)`: mapped to `PAYLOAD_TOO_LARGE`. -/
def payloadTooLargeError (message : String) : ErrorOut :=
  ⟨413, "PAYLOAD_TOO_LARGE", message⟩

/-! ## Credential verifier (`app/security.py`)

`verify_password` wraps `argon2.PasswordHasher.verify` in a `try` that
catches only `VerifyMismatchError`.  The argon2-cffi library's `verify`
has three relevant outcomes: success, `VerifyMismatchError` (well-formed
hash, wrong password), and `InvalidHashError` (the stored string cannot
be parsed as an argon2 encoded hash, e.g. an empty or corrupted column).
The hash computation itself is opaque to this code; it is modelled by a
fixed injective encoding so that parse-failure and mismatch are
distinguishable, which is all `verify_password`'s control flow inspects. -/

/-- Result of running a Python function: a value, or an uncaught
exception identified by its class name. -/
inductive PyResult (α : Type) where
  | ok (val : α)
  | exn (excName : String)
deriving DecidableEq, Repr

/-- Model of the argon2 encoded-hash format check: `PasswordHasher.hash`
output always starts with `$argon2`; anything else fails to parse and
makes `verify` raise `InvalidHashError`. -/
def isArgon2Hash (stored : String) : Bool :=
  stored.toList.take 7 == "$argon2".toList

/-- Model of `PasswordHasher.hash` (`hash_password`): an opaque encoding
of the password into a well-formed argon2 hash string. -/
def argon2_hash (password : String) : String :=
  "$argon2id$" ++ password

inductive Argon2Outcome where
  | ok
  | mismatch
  | invalidHash
deriving DecidableEq, Repr

/-- Model of `argon2.PasswordHasher.verify(stored, plain)`. -/
def ph_verify (stored plain : String) : Argon2Outcome :=
  if ¬ isArgon2Hash stored then .invalidHash
  else if stored = argon2_hash plain then .ok
  else .mismatch

/-- `verify_password` from `app/security.py`: returns `True` on success,
`False` when `VerifyMismatchError` is caught; any other exception —
in particular `InvalidHashError` on a malformed stored hash — is not
caught and propagates. -/
def verify_password (plain_password hashed_password : String) : PyResult Bool :=
  match ph_verify hashed_password plain_password with
  | .ok => .ok true
  | .mismatch => .ok false
  | .invalidHash => .exn "InvalidHashError"

/-! ## File upload validator (`app/services/file_service.py`)

`validate_pdf_file` checks filename extension then declared content type;
`save_pdf_file` reads the bytes, checks the size ceiling
(`HTTPException(413)`) then the `%PDF` magic bytes (`HTTPException(400)`),
then writes the file under a fresh GUID name.  The optional python-magic
corroboration inside `validate_pdf_magic_bytes` is modelled in its
fallback branch (`except (ImportError, Exception)`: trust the signature),
the deterministic behaviour when the optional library is absent. -/

structure UploadFileM where
  /-- `UploadFile.filename`; `none` models a missing filename. -/
  filename : Option String
  content_type : String
  /-- The full byte stream, as byte values. -/
  content : List Nat
deriving DecidableEq, Repr

/-- Python `str.lower()` (ASCII case folding, the relevant range for
filenames). -/
def pyLower (s : String) : String :=
  (s.toList.map Char.toLower).asString

/-- Python `str.upper()` (ASCII case folding). -/
def pyUpper (s : String) : String :=
  (s.toList.map Char.toUpper).asString

/-- Python `str.endswith(suffix)`. -/
def pyEndsWith (s suffix : String) : Bool :=
  s.toList.drop (s.toList.length - suffix.toList.length) == suffix.toList

/-- `validate_pdf_file`: `(is_valid, error_message)`.  Python's
`not file.filename` is true for both `None` and the empty string. -/
def validate_pdf_file (file : UploadFileM) : Bool × Option String :=
  match file.filename with
  | none => (false, some "File must be a PDF (.pdf extension required)")
  | some fn =>
    if fn = "" ∨ ¬ (pyEndsWith (pyLower fn) ".pdf") then
      (false, some "File must be a PDF (.pdf extension required)")
    else if file.content_type ≠ "application/pdf" then
      (false, some "File must be of type application/pdf")
    else (true, none)

/-- The extension check of `validate_pdf_file` as a standalone predicate:
the filename is present, non-empty, and case-insensitively ends in
`.pdf`. -/
def extCheck (file : UploadFileM) : Bool :=
  match file.filename with
  | none => false
  | some fn => (fn != "") && pyEndsWith (pyLower fn) ".pdf"

/-- The 4 leading bytes `%PDF`. -/
def pdfMagic : List Nat := [37, 80, 68, 70]

/-- `validate_pdf_magic_bytes` (python-magic unavailable: the fallback
branch trusts the signature). -/
def validate_pdf_magic_bytes (file_content : List Nat) : Bool :=
  if file_content.length < 4 then false
  else if file_content.take 4 ≠ pdfMagic then false
  else true

/-- The slice of `app/config.py` the file service reads.  The default of
`max_file_size_mb` is 10. -/
structure SettingsM where
  max_file_size_mb : Nat
deriving DecidableEq, Repr

def defaultSettings : SettingsM := ⟨10⟩

/-- `Settings.max_file_size_bytes`: MB → bytes. -/
def SettingsM.max_file_size_bytes (s : SettingsM) : Nat :=
  s.max_file_size_mb * 1024 * 1024

/-- `save_pdf_file`: size ceiling (413), magic bytes (400), then the
stored relative path under the fresh GUID `newName` and the byte size. -/
def save_pdf_file (file : UploadFileM) (s : SettingsM) (newName : String) :
    Except ErrorOut (String × Nat) :=
  let file_content := file.content
  let file_size := file_content.length
  if file_size > s.max_file_size_bytes then
    .error (payloadTooLargeError
      ("File size exceeds maximum allowed size of " ++ toString s.max_file_size_mb ++ "MB"))
  else if ¬ validate_pdf_magic_bytes file_content then
    .error (badRequestError "File is not a valid PDF")
  else
    .ok ("uploads/" ++ newName ++ ".pdf", file_size)

/-! ## Registration write path (`app/api/registrations.py`) -/

/-- The `RegistrationCreate` payload as the handler receives it (already
past pydantic field validation). -/
structure RegistrationCreate where
  event_id : Nat
  operative_name : String
  moodle_id : String
deriving DecidableEq, Repr

/-- `create_registration`: sanitize the name, require an existing active
event, insert; the `(event_id, moodle_id)` unique constraint of
`app/models.py` turns a duplicate insert's `IntegrityError` into a
rollback plus `ConflictError`.  Returns the row and the route's 201
status on success. -/
def create_registration (data : RegistrationCreate) (newId : Nat) (db : DB) :
    Except ErrorOut (RegistrationRow × Nat) × DB :=
  let operative_name := sanitize_string data.operative_name (some 100)
  match db.events.find? (fun e => e.id == data.event_id && e.is_active) with
  | none => (.error (notFoundError "Event" (toString data.event_id)), db)
  | some event =>
    let registration : RegistrationRow :=
      ⟨newId, data.event_id, operative_name, data.moodle_id⟩
    if db.registrations.any
        (fun r => r.event_id == data.event_id && r.moodle_id == data.moodle_id) then
      (.error (conflictError ("Registration already exists for Moodle ID "
        ++ data.moodle_id ++ " and event " ++ event.title)), db)
    else
      (.ok (registration, 201),
        { db with registrations := db.registrations ++ [registration] })

/-! ## Event endpoints (`app/api/events.py`)

`sanitize_text` (the rich sanitizer with an allow-list of formatting
tags) is only applied to `description`, a field no claim inspects; the
event endpoints are parametrised by it (`st`) rather than fixing a
model of the allow-list cleaner.  `date.today()` is the `today`
parameter.  A raise before `db.commit()` leaves the committed state
unchanged; `db.commit()` writes the mutated row back by primary key. -/

/-- Insertion into a list sorted by descending date (`order_by(date.desc())`). -/
def insertByDateDesc (e : EventRow) : List EventRow → List EventRow
  | [] => [e]
  | x :: xs => if x.date ≤ e.date then e :: x :: xs else x :: insertByDateDesc e xs

/-- `order_by(Event.date.desc())`. -/
def sortByDateDesc : List EventRow → List EventRow
  | [] => []
  | x :: xs => insertByDateDesc x (sortByDateDesc xs)

/-- `get_events`: optional type and active-status filters, newest-date
first.  With no filters supplied (`none`, `none`) no `WHERE` clause is
added. -/
def get_events (etype : Option EventType) (is_active : Option Bool) (db : DB) :
    List EventRow :=
  let q := db.events
  let q := match etype with
    | some t => q.filter (fun e => e.etype == t)
    | none => q
  let q := match is_active with
    | some b => q.filter (fun e => e.is_active == b)
    | none => q
  sortByDateDesc q

/-- `get_event`: fetch by id, 404 when absent. -/
def get_event (event_id : Nat) (db : DB) : Except ErrorOut EventRow :=
  match db.events.find? (fun e => e.id == event_id) with
  | none => .error (notFoundError "Event" (toString event_id))
  | some e => .ok e

/-- The `EventCreate` payload (past pydantic validation). -/
structure EventCreate where
  title : String
  etype : EventType
  date : Int
  description : Option String
deriving DecidableEq, Repr

/-- `create_event`: sanitize, reject past dates with `ValidationError`,
insert with `is_active=True`.  Python's `if event_data.description`
treats the empty string like `None`. -/
def create_event (st : String → String) (data : EventCreate) (today : Int)
    (newId : Nat) (db : DB) : Except ErrorOut (EventRow × Nat) × DB :=
  let title := sanitize_string data.title (some 200)
  let description := match data.description with
    | some d => if d = "" then none else some (st d)
    | none => none
  if data.date < today then
    (.error (validationError "Event date cannot be in the past"), db)
  else
    let event : EventRow := ⟨newId, title, data.etype, data.date, description, true⟩
    (.ok (event, 201), { db with events := db.events ++ [event] })

/-- The `EventUpdate` payload: every field optional. -/
structure EventUpdate where
  title : Option String
  etype : Option EventType
  date : Option Int
  description : Option String
  is_active : Option Bool
deriving DecidableEq, Repr

/-- `update_event`: 404 when absent; assigns provided fields in order,
raising `ValidationError` on a past date before `db.commit()` (so no
assignment is persisted); note the date branch here uses `is not None`,
so an empty-string description is processed. -/
def update_event (st : String → String) (event_id : Nat) (data : EventUpdate)
    (today : Int) (db : DB) : Except ErrorOut EventRow × DB :=
  match db.events.find? (fun e => e.id == event_id) with
  | none => (.error (notFoundError "Event" (toString event_id)), db)
  | some event =>
    let event := match data.title with
      | some t => { event with title := sanitize_string t (some 200) }
      | none => event
    let event := match data.etype with
      | some ty => { event with etype := ty }
      | none => event
    let dateInPast := match data.date with
      | some d => decide (d < today)
      | none => false
    if dateInPast then
      (.error (validationError "Event date cannot be in the past"), db)
    else
      let event := match data.date with
        | some d => { event with date := d }
        | none => event
      let event := match data.description with
        | some ds => { event with description := some (st ds) }
        | none => event
      let event := match data.is_active with
        | some b => { event with is_active := b }
        | none => event
      (.ok event,
        { db with events := db.events.map (fun e => if e.id == event_id then event else e) })

/-- `delete_event`: soft delete — set `is_active=False` and commit. -/
def delete_event (event_id : Nat) (db : DB) : Except ErrorOut Unit × DB :=
  match db.events.find? (fun e => e.id == event_id) with
  | none => (.error (notFoundError "Event" (toString event_id)), db)
  | some _ =>
    (.ok (),
      { db with events := (db.events.map
          (fun e => if e.id == event_id then { e with is_active := false } else e)) })

/-! ## Resource endpoints (`app/api/resources.py`)

For the file/row sequencing claims the filesystem is a list of existing
paths and every filesystem or commit effect is also recorded, in program
order, in an operation trace. -/

inductive FileOp where
  /-- `delete_file(path)` / `Path.unlink`. -/
  | deleteFile (path : String)
  /-- the `open(file_path, "wb").write(...)` inside `save_pdf_file`. -/
  | writeFile (path : String)
  /-- `db.delete(resource)`. -/
  | deleteRow (rid : Nat)
  /-- `db.commit()`. -/
  | commitRow
deriving DecidableEq, Repr

/-- `create_resource`: validate extension/content type (400), sanitize
title, `save_pdf_file` (413/400), insert row, commit.  (The fresh-GUID
`file_url` cannot collide, so the unique-constraint path is not
reachable here.) -/
def create_resource (title : String) (level : ResourceLevel) (file : UploadFileM)
    (s : SettingsM) (newName : String) (newId : Nat) (db : DB) :
    Except ErrorOut (ResourceRow × Nat) × DB :=
  match validate_pdf_file file with
  | (false, error_msg) => (.error (badRequestError (error_msg.getD "")), db)
  | (true, _) =>
    let sanitized_title := sanitize_string title (some 200)
    match save_pdf_file file s newName with
    | .error e => (.error e, db)
    | .ok (file_url, file_size) =>
      let resource : ResourceRow := ⟨newId, sanitized_title, level, file_url, some file_size⟩
      (.ok (resource, 201), { db with resources := db.resources ++ [resource] })

/-- `update_resource` on `(rows, files)`, returning the result, the new
rows and files, and the trace of filesystem/commit operations in the
order the code performs them: when a replacement file is supplied it
deletes the old backing file, then saves the new one, then commits. -/
def update_resource (rid : Nat) (title : Option String) (level : Option ResourceLevel)
    (file : Option UploadFileM) (s : SettingsM) (newName : String)
    (rows : List ResourceRow) (fs : List String) :
    Except ErrorOut ResourceRow × List ResourceRow × List String × List FileOp :=
  match rows.find? (fun r => r.id == rid) with
  | none => (.error (notFoundError "Resource" (toString rid)), rows, fs, [])
  | some resource =>
    let resource := match title with
      | some t => { resource with title := sanitize_string t (some 200) }
      | none => resource
    let resource := match level with
      | some lv => { resource with level := lv }
      | none => resource
    match file with
    | none =>
      (.ok resource,
        rows.map (fun r => if r.id == rid then resource else r), fs, [.commitRow])
    | some f =>
      match validate_pdf_file f with
      | (false, error_msg) => (.error (badRequestError (error_msg.getD "")), rows, fs, [])
      | (true, _) =>
        let oldPath := resource.file_url
        let fs1 := if fs.contains oldPath then fs.erase oldPath else fs
        let tr1 := if fs.contains oldPath then [FileOp.deleteFile oldPath] else []
        match save_pdf_file f s newName with
        | .error e => (.error e, rows, fs1, tr1)
        | .ok (file_url, file_size) =>
          let resource := { resource with file_url := file_url, file_size := some file_size }
          (.ok resource,
            rows.map (fun r => if r.id == rid then resource else r),
            file_url :: fs1,
            tr1 ++ [FileOp.writeFile file_url, FileOp.commitRow])

/-- `delete_resource`: 404 when absent; deletes the backing file, then
the database row, then commits. -/
def delete_resource (rid : Nat) (rows : List ResourceRow) (fs : List String) :
    Except ErrorOut Unit × List ResourceRow × List String × List FileOp :=
  match rows.find? (fun r => r.id == rid) with
  | none => (.error (notFoundError "Resource" (toString rid)), rows, fs, [])
  | some resource =>
    let fs1 := if fs.contains resource.file_url then fs.erase resource.file_url else fs
    let tr1 := if fs.contains resource.file_url then [FileOp.deleteFile resource.file_url] else []
    (.ok (), rows.filter (fun r => r.id != rid), fs1,
      tr1 ++ [FileOp.deleteRow rid, FileOp.commitRow])

/-! ## Hackathon team write path (`app/schemas.py`, `app/api/hackathon_teams.py`)

FastAPI validates the request body against `HackathonTeamCreate` before
the handler runs; any pydantic error yields the 422 `VALIDATION_ERROR`
envelope of `app/main.py` and the handler — hence any write — never
happens.  The schema's checks are collected as a list of failed-check
labels; `EmailStr` is approximated by an `@`-membership test (its only
role here is that a failing field adds an error). -/

structure TeamMemberBase where
  name : String
  email : String
  moodle_id : String
  roll_no : String
  division : String
  department : String
  year : String
  mobile : String
  is_leader : Bool
deriving DecidableEq, Repr

structure HackathonTeamCreate where
  event_name : String
  team_name : String
  team_members : List TeamMemberBase
deriving DecidableEq, Repr

/-- `EmailStr` approximation. -/
def isEmailLike (s : String) : Bool := s.toList.contains '@'

/-- Per-member pydantic checks of `TeamMemberBase` (field constraints and
the `validate_mobile` validator). -/
def memberErrors (m : TeamMemberBase) : List String :=
  (if m.name.length < 1 ∨ m.name.length > 100 then ["name"] else []) ++
  (if ¬ isEmailLike m.email then ["email"] else []) ++
  (if m.moodle_id.length < 1 ∨ m.moodle_id.length > 20 then ["moodle_id"] else []) ++
  (if m.roll_no.length < 1 ∨ m.roll_no.length > 20 then ["roll_no"] else []) ++
  (if m.division.length < 1 ∨ m.division.length > 5 then ["division"] else []) ++
  (if m.department.length < 1 ∨ m.department.length > 100 then ["department"] else []) ++
  (if m.year.length < 1 ∨ m.year.length > 10 then ["year"] else []) ++
  (if ¬ (m.mobile.length = 10 ∧ m.mobile.toList.all Char.isDigit) then ["mobile"] else [])

/-- Pydantic validation of `HackathonTeamCreate`: field constraints,
`min_items=4, max_items=4`, and the `validate_team_members` validator
(exactly 4 members, exactly 1 leader). -/
def hackathonTeamCreateErrors (t : HackathonTeamCreate) : List String :=
  (if t.event_name.length < 1 ∨ t.event_name.length > 200 then ["event_name"] else []) ++
  (if t.team_name.length < 1 ∨ t.team_name.length > 100 then ["team_name"] else []) ++
  (t.team_members.map memberErrors).flatten ++
  (if t.team_members.length ≠ 4 then ["Team must have exactly 4 members"]
   else if (t.team_members.filter (fun m => m.is_leader)).length ≠ 1 then
     ["Team must have exactly 1 leader"]
   else [])

/-- The handler body of `create_hackathon_team` (input already passed the
schema): sanitize the team name, insert team then members, commit; a
`(event_name, team_name)` uniqueness violation rolls the whole
transaction back and surfaces `ConflictError`.  Member rows take the
lower-cased email and upper-cased division. -/
def create_hackathon_team (data : HackathonTeamCreate) (newTeamId : Nat)
    (memberIds : List Nat) (db : DB) : Except ErrorOut (TeamRow × Nat) × DB :=
  let team_name := sanitize_string data.team_name (some 100)
  let team : TeamRow := ⟨newTeamId, data.event_name, team_name⟩
  if db.teams.any (fun t => t.event_name == data.event_name && t.team_name == team_name) then
    (.error (conflictError ("Team name '" ++ team_name ++ "' already exists for "
      ++ data.event_name)), db)
  else
    let members := (data.team_members.zip memberIds).map (fun p =>
      TeamMemberRow.mk p.2 newTeamId (sanitize_string p.1.name (some 100))
        (pyLower p.1.email) p.1.moodle_id p.1.roll_no (pyUpper p.1.division)
        p.1.department p.1.year p.1.mobile p.1.is_leader)
    (.ok (team, 201),
      { db with teams := db.teams ++ [team],
                team_members := db.team_members ++ members })

/-- The full POST `/api/hackathon-teams` pipeline: schema validation
gate (422 envelope, no handler run) then the handler. -/
def post_hackathon_team (data : HackathonTeamCreate) (newTeamId : Nat)
    (memberIds : List Nat) (db : DB) : Except ErrorOut (TeamRow × Nat) × DB :=
  if (hackathonTeamCreateErrors data).isEmpty then
    create_hackathon_team data newTeamId memberIds db
  else
    (.error (validationError "Validation error"), db)

/-- `sanitizeChars` with the markup-removal pass already known to be the
identity: used to evaluate the sanitizer on concrete markup-free input
(`cleanChars` is defined by well-founded recursion and does not reduce
definitionally). -/
def sanitizeCharsNoClean (input : List Char) (max_length : Option Nat) : List Char :=
  let cleaned := stripChars input
  match max_length with
  | some m => if m ≠ 0 ∧ cleaned.length > m then cleaned.take m else cleaned
  | none => cleaned

/-- Number of registration rows carrying a given `(event_id, moodle_id)`
pair. -/
def countPair (db : DB) (eid : Nat) (mid : String) : Nat :=
  (db.registrations.filter (fun r => r.event_id == eid && r.moodle_id == mid)).length

theorem tagFree_of_not_mem : ∀ {l : List Char}, '>' ∉ l → tagFree l = true
  | [], _ => by simp [tagFree]
  | c :: rest, h => by
    have hrest : '>' ∉ rest := fun hm => h (List.mem_cons_of_mem _ hm)
    by_cases hc : c = '<'
    · simp [tagFree, hc]
      exact hrest
    · simp only [tagFree, if_neg hc]
      exact tagFree_of_not_mem hrest

theorem tagFree_cons : ∀ {c : Char} {rest : List Char},
    tagFree (c :: rest) = true → tagFree rest = true := by
  intro c rest h
  by_cases hc : c = '<'
  · simp only [tagFree, if_pos hc, Bool.not_eq_true'] at h
    exact tagFree_of_not_mem (by simpa using h)
  · simpa [tagFree, hc] using h

theorem tagFree_append_left : ∀ {a b : List Char}, tagFree (a ++ b) = true → tagFree a = true
  | [], _, _ => by simp [tagFree]
  | c :: a', b, h => by
    by_cases hc : c = '<'
    · simp only [List.cons_append, tagFree, if_pos hc, Bool.not_eq_true'] at h
      have hm : '>' ∉ a' ++ b := by simpa using h
      have hna : '>' ∉ a' := fun hx => hm (List.mem_append_left _ hx)
      simp [tagFree, hc]
      exact hna
    · simp only [List.cons_append, tagFree, if_neg hc] at h ⊢
      exact tagFree_append_left h

theorem tagFree_append_right : ∀ {a b : List Char}, tagFree (a ++ b) = true → tagFree b = true
  | [], _, h => h
  | _ :: _, _, h => tagFree_append_right (tagFree_cons h)

theorem tagFree_of_prefix {a l : List Char} (h : a <+: l) (hl : tagFree l = true) :
    tagFree a = true := by
  obtain ⟨t, ht⟩ := h
  exact tagFree_append_left (ht ▸ hl)

theorem tagFree_of_suffix {a l : List Char} (h : a <:+ l) (hl : tagFree l = true) :
    tagFree a = true := by
  obtain ⟨t, ht⟩ := h
  exact tagFree_append_right (ht ▸ hl)

/-- `cleanChars` is the identity on markup-free input. -/
theorem cleanChars_eq_self_of_tagFree : ∀ {l : List Char}, tagFree l = true → cleanChars l = l
  | [], _ => by simp [cleanChars]
  | c :: rest, h => by
    rw [cleanChars]
    by_cases hc : c = '<'
    · have hcon : ¬(rest.contains '>' = true) := by
        simpa [tagFree, hc] using h
      rw [if_pos hc, if_neg hcon]
    · rw [if_neg hc, cleanChars_eq_self_of_tagFree (by simpa [tagFree, hc] using h)]

/-- `cleanChars` output is markup-free (fuelled strong induction). -/
theorem tagFree_cleanChars_fuel :
    ∀ (n : Nat) (l : List Char), l.length ≤ n → tagFree (cleanChars l) = true
  | _, [], _ => by simp [cleanChars, tagFree]
  | 0, _ :: _, h => by simp at h
  | n + 1, c :: rest, h => by
    rw [cleanChars]
    by_cases hc : c = '<'
    · by_cases hg : rest.contains '>'
      · rw [if_pos hc, if_pos hg]
        refine tagFree_cleanChars_fuel n _ ?_
        have h1 : (rest.dropWhile (fun d => d ≠ '>')).length ≤ rest.length :=
          (List.dropWhile_suffix _).length_le
        have h2 : ((rest.dropWhile (fun d => d ≠ '>')).drop 1).length =
            (rest.dropWhile (fun d => d ≠ '>')).length - 1 := List.length_drop _ _
        simp only [List.length_cons] at h
        omega
      · rw [if_pos hc, if_neg hg]
        have hmem : '>' ∉ rest := by simpa using hg
        simp [tagFree, hc]
        exact hmem
    · rw [if_neg hc]
      have hr : tagFree (cleanChars rest) = true := by
        refine tagFree_cleanChars_fuel n rest ?_
        simp only [List.length_cons] at h
        omega
      simpa [tagFree, hc] using hr

theorem tagFree_cleanChars (l : List Char) : tagFree (cleanChars l) = true :=
  tagFree_cleanChars_fuel l.length l le_rfl

theorem tagFree_stripChars {l : List Char} (h : tagFree l = true) :
    tagFree (stripChars l) = true := by
  have h1 : tagFree (l.dropWhile Char.isWhitespace) = true :=
    tagFree_of_suffix (List.dropWhile_suffix _) h
  exact tagFree_of_prefix (List.rdropWhile_prefix _ _) h1

/-- A list whose whitespace-dropWhile fixes an extension also fixes the
left part: used to show `stripChars` output has no leading whitespace. -/
theorem dropWhile_eq_self_of_append {α : Type} (p : α → Bool) : ∀ {y t : List α},
    List.dropWhile p (y ++ t) = y ++ t → List.dropWhile p y = y
  | [], _, _ => by simp
  | c :: y', t, h => by
    by_cases hp : p c
    · exfalso
      rw [List.cons_append, List.dropWhile_cons_of_pos hp] at h
      have hlen := congrArg List.length h
      have hle : (List.dropWhile p (y' ++ t)).length ≤ (y' ++ t).length :=
        (List.dropWhile_suffix _).length_le
      simp only [List.length_cons, List.length_append] at hlen hle
      omega
    · rw [List.dropWhile_cons_of_neg (by simpa using hp)]

/-- `stripChars` is idempotent: its output neither starts nor ends with
whitespace. -/
theorem stripChars_idem (l : List Char) : stripChars (stripChars l) = stripChars l := by
  unfold stripChars
  obtain ⟨t, ht⟩ := List.rdropWhile_prefix Char.isWhitespace (l.dropWhile Char.isWhitespace)
  have ha : List.dropWhile Char.isWhitespace (l.dropWhile Char.isWhitespace) =
      l.dropWhile Char.isWhitespace := List.dropWhile_idempotent _ _
  have h1 : List.dropWhile Char.isWhitespace
      ((l.dropWhile Char.isWhitespace).rdropWhile Char.isWhitespace) =
      (l.dropWhile Char.isWhitespace).rdropWhile Char.isWhitespace :=
    dropWhile_eq_self_of_append _ (t := t) (by rw [ht]; exact ha)
  rw [h1, List.rdropWhile_idempotent]

/-- On markup-free input, one sanitizer pass with no truncation reduces to
`stripChars`. -/
theorem sanitizeChars_untruncated (x : List Char) (n : Option Nat)
    (h : sanitizeChars x n = stripChars (cleanChars x)) :
    ∀ m, n = some m → ¬(m ≠ 0 ∧ (stripChars (cleanChars x)).length > m) := by
  intro m hm hcond
  rw [hm] at h
  unfold sanitizeChars at h
  simp only [if_pos hcond] at h
  have := congrArg List.length h
  rw [List.length_take] at this
  omega

theorem sanitizeChars_of_tagFree (x : List Char) (n : Option Nat) (h : tagFree x = true) :
    sanitizeChars x n = sanitizeCharsNoClean x n := by
  unfold sanitizeChars sanitizeCharsNoClean
  rw [cleanChars_eq_self_of_tagFree h]

/-- C8 counterexample: `sanitize_strict` is not idempotent for every
string and maximum length.  On `"ab c"` with `max_len = 3` the first pass
truncates to `"ab "`; the second pass strips the trailing space left by
the truncation, giving `"ab" ≠ "ab "`. -/
theorem sanitize_strict_idempotence_cex :
    sanitizeChars (sanitizeChars ['a', 'b', ' ', 'c'] (some 3)) (some 3) ≠
      sanitizeChars ['a', 'b', ' ', 'c'] (some 3) := by
  have h1 : sanitizeChars ['a', 'b', ' ', 'c'] (some 3) =
      sanitizeCharsNoClean ['a', 'b', ' ', 'c'] (some 3) :=
    sanitizeChars_of_tagFree _ _ (by decide)
  have h2 : sanitizeChars ['a', 'b', ' '] (some 3) =
      sanitizeCharsNoClean ['a', 'b', ' '] (some 3) :=
    sanitizeChars_of_tagFree _ _ (by decide)
  have e1 : sanitizeCharsNoClean ['a', 'b', ' ', 'c'] (some 3) = ['a', 'b', ' '] := by decide
  rw [h1, e1, h2]
  decide

/-- C8 (amended): the strict sanitizer is idempotent on every input on
which its truncation step does not fire, i.e. whenever one application
returns the cleaned-and-stripped text unshortened; truncation can expose
trailing whitespace that only the second application strips. -/
theorem sanitize_strict_idempotent_without_truncation (x : List Char) (n : Option Nat)
    (h : sanitizeChars x n = stripChars (cleanChars x)) :
    sanitizeChars (sanitizeChars x n) n = sanitizeChars x n := by
  rw [h]
  have htf : tagFree (stripChars (cleanChars x)) = true :=
    tagFree_stripChars (tagFree_cleanChars x)
  have hclean : cleanChars (stripChars (cleanChars x)) = stripChars (cleanChars x) :=
    cleanChars_eq_self_of_tagFree htf
  have hstrip : stripChars (stripChars (cleanChars x)) = stripChars (cleanChars x) :=
    stripChars_idem (cleanChars x)
  cases n with
  | none =>
    unfold sanitizeChars
    rw [hclean]
    dsimp only
    exact hstrip
  | some m =>
    have hcond : ¬(m ≠ 0 ∧ (stripChars (cleanChars x)).length > m) :=
      sanitizeChars_untruncated x (some m) h m rfl
    unfold sanitizeChars
    rw [hclean]
    dsimp only
    rw [hstrip, if_neg hcond]

/-- C8 witness: a markup-bearing input on which no truncation occurs,
instantiating `sanitize_strict_idempotent_without_truncation`. -/
theorem sanitize_strict_idempotent_without_truncation_witness :
    sanitizeChars [' ', 'h', 'i', ' ', 'y'] (some 100) =
      stripChars (cleanChars [' ', 'h', 'i', ' ', 'y']) ∧
    sanitizeChars (sanitizeChars [' ', 'h', 'i', ' ', 'y'] (some 100)) (some 100) =
      sanitizeChars [' ', 'h', 'i', ' ', 'y'] (some 100) := by
  have hx : cleanChars [' ', 'h', 'i', ' ', 'y'] = [' ', 'h', 'i', ' ', 'y'] :=
    cleanChars_eq_self_of_tagFree (by decide)
  have h : sanitizeChars [' ', 'h', 'i', ' ', 'y'] (some 100) =
      stripChars (cleanChars [' ', 'h', 'i', ' ', 'y']) := by
    rw [sanitizeChars_of_tagFree _ _ (by decide), hx]
    decide
  exact ⟨h, sanitize_strict_idempotent_without_truncation _ _ h⟩

/-- C3 counterexample: `verify_password` does not return a boolean for
every stored-hash string.  On the malformed stored hash `""` (not an
argon2 encoding), `PasswordHasher.verify` raises `InvalidHashError`,
which the `except VerifyMismatchError` clause does not catch, so the
exception propagates instead of returning `False`. -/
theorem verify_password_total_cex :
    verify_password "secret" "" = PyResult.exn "InvalidHashError" := by
  decide

/-- C3 (amended): for every plaintext and every *well-formed* stored
hash, `verify_password` returns a boolean — `True` exactly on a match —
and never raises; on a malformed stored hash the uncaught
`InvalidHashError` propagates to the caller. -/
theorem verify_password_bool_on_wellformed (plain stored : String)
    (h : isArgon2Hash stored = true) :
    ∃ b : Bool, verify_password plain stored = PyResult.ok b ∧
      (b = true ↔ stored = argon2_hash plain) := by
  unfold verify_password ph_verify
  rw [h]
  by_cases he : stored = argon2_hash plain
  · exact ⟨true, by simp [he]⟩
  · exact ⟨false, by simp [he]⟩

/-- C3 witness: a concrete well-formed stored hash, on which
`verify_password` returns `ok true`. -/
theorem verify_password_bool_on_wellformed_witness :
    isArgon2Hash "$argon2id$pw" = true ∧
    ∃ b : Bool, verify_password "pw" "$argon2id$pw" = PyResult.ok b ∧
      (b = true ↔ "$argon2id$pw" = argon2_hash "pw") :=
  ⟨by decide, verify_password_bool_on_wellformed "pw" "$argon2id$pw" (by decide)⟩

/-- C1: submitting the same `(event_id, moodle_id)` pair twice against an
existing active event: the first call returns 201 and persists exactly one
row with that pair; the second call fails with HTTP 409, machine code
`CONFLICT`, and leaves storage unchanged, so exactly one row with the
pair exists afterwards. -/
theorem registration_duplicate_conflict (data : RegistrationCreate) (db : DB)
    (id1 id2 : Nat)
    (hev : ∃ e ∈ db.events, e.id = data.event_id ∧ e.is_active = true)
    (hfresh : countPair db data.event_id data.moodle_id = 0) :
    ∃ reg db1,
      create_registration data id1 db = (Except.ok (reg, 201), db1) ∧
      countPair db1 data.event_id data.moodle_id = 1 ∧
      ∃ msg, create_registration data id2 db1 = (Except.error (conflictError msg), db1) ∧
        (conflictError msg).status = 409 ∧ (conflictError msg).code = "CONFLICT" := by
  obtain ⟨e, hfind⟩ :
      ∃ e, db.events.find? (fun e => e.id == data.event_id && e.is_active) = some e := by
    apply Option.isSome_iff_exists.mp
    apply List.find?_isSome.mpr
    obtain ⟨e, he, h1, h2⟩ := hev
    exact ⟨e, he, by simp [h1, h2]⟩
  simp only [countPair] at hfresh
  have hnil : db.registrations.filter
      (fun r => r.event_id == data.event_id && r.moodle_id == data.moodle_id) = [] :=
    List.length_eq_zero.mp hfresh
  have hall := List.filter_eq_nil_iff.mp hnil
  have hany : db.registrations.any
      (fun r => r.event_id == data.event_id && r.moodle_id == data.moodle_id) = false := by
    simp only [List.any_eq_false]
    intro x hx
    simpa using hall x hx
  refine ⟨⟨id1, data.event_id, sanitize_string data.operative_name (some 100), data.moodle_id⟩,
    { db with registrations := db.registrations ++
        [⟨id1, data.event_id, sanitize_string data.operative_name (some 100), data.moodle_id⟩] },
    ?_, ?_, ?_⟩
  · simp [create_registration, hfind, hany]
  · simp [countPair, List.filter_append, hnil]
  · refine ⟨"Registration already exists for Moodle ID " ++ data.moodle_id
      ++ " and event " ++ e.title, ?_, rfl, rfl⟩
    have hany1 : (db.registrations ++
        [(⟨id1, data.event_id, sanitize_string data.operative_name (some 100),
          data.moodle_id⟩ : RegistrationRow)]).any
        (fun r => r.event_id == data.event_id && r.moodle_id == data.moodle_id) = true := by
      simp
    simp [create_registration, hfind, hany1]

/-- C1 witness: one active event, an empty registrations table, and two
calls with the same pair. -/
theorem registration_duplicate_conflict_witness :
    (∃ e ∈ (DB.mk [⟨7, "CTF Night", EventType.WORKSHOP, 20, none, true⟩] [] [] [] []).events,
        e.id = 7 ∧ e.is_active = true) ∧
    countPair (DB.mk [⟨7, "CTF Night", EventType.WORKSHOP, 20, none, true⟩] [] [] [] [])
        7 "ab12345678" = 0 ∧
    ∃ reg db1,
      create_registration ⟨7, "Neo", "ab12345678"⟩ 1
          (DB.mk [⟨7, "CTF Night", EventType.WORKSHOP, 20, none, true⟩] [] [] [] []) =
        (Except.ok (reg, 201), db1) ∧
      countPair db1 7 "ab12345678" = 1 ∧
      ∃ msg, create_registration ⟨7, "Neo", "ab12345678"⟩ 2 db1 =
          (Except.error (conflictError msg), db1) ∧
        (conflictError msg).status = 409 ∧ (conflictError msg).code = "CONFLICT" :=
  ⟨⟨⟨7, "CTF Night", EventType.WORKSHOP, 20, none, true⟩, by simp, rfl, rfl⟩, by decide,
    registration_duplicate_conflict ⟨7, "Neo", "ab12345678"⟩
      (DB.mk [⟨7, "CTF Night", EventType.WORKSHOP, 20, none, true⟩] [] [] [] []) 1 2
      ⟨⟨7, "CTF Night", EventType.WORKSHOP, 20, none, true⟩, by simp, rfl, rfl⟩ (by decide)⟩

/-- C6: a registration request whose `event_id` matches no event, or only
an event with `is_active = false`, fails with the 404 `NOT_FOUND` error —
not a conflict — and persists nothing. -/
theorem registration_inactive_event_not_found (data : RegistrationCreate)
    (newId : Nat) (db : DB)
    (h : ∀ e ∈ db.events, ¬(e.id = data.event_id ∧ e.is_active = true)) :
    create_registration data newId db =
      (Except.error (notFoundError "Event" (toString data.event_id)), db) ∧
    (notFoundError "Event" (toString data.event_id)).status = 404 ∧
    (notFoundError "Event" (toString data.event_id)).code = "NOT_FOUND" := by
  have hfind : db.events.find? (fun e => e.id == data.event_id && e.is_active) = none := by
    apply List.find?_eq_none.mpr
    intro e he
    simpa using h e he
  exact ⟨by simp [create_registration, hfind], rfl, rfl⟩

/-- C6 witness: a soft-deleted (inactive) event, plus a duplicate
registration already on file — the outcome is still 404, not 409. -/
theorem registration_inactive_event_not_found_witness :
    (∀ e ∈ (DB.mk [⟨7, "CTF Night", EventType.WORKSHOP, 20, none, false⟩]
        [⟨1, 7, "Neo", "ab12345678"⟩] [] [] []).events,
      ¬(e.id = 7 ∧ e.is_active = true)) ∧
    create_registration ⟨7, "Neo", "ab12345678"⟩ 2
        (DB.mk [⟨7, "CTF Night", EventType.WORKSHOP, 20, none, false⟩]
          [⟨1, 7, "Neo", "ab12345678"⟩] [] [] []) =
      (Except.error (notFoundError "Event" (toString (7 : Nat))),
        DB.mk [⟨7, "CTF Night", EventType.WORKSHOP, 20, none, false⟩]
          [⟨1, 7, "Neo", "ab12345678"⟩] [] [] []) :=
  ⟨by decide,
    (registration_inactive_event_not_found ⟨7, "Neo", "ab12345678"⟩ 2
      (DB.mk [⟨7, "CTF Night", EventType.WORKSHOP, 20, none, false⟩]
        [⟨1, 7, "Neo", "ab12345678"⟩] [] [] []) (by decide)).1⟩

/-- C2: the claim requires write-new → commit-row → delete-old for file
replacement and delete-row → delete-file for deletion.  The code does the
reverse: `update_resource` deletes the old backing file before
`save_pdf_file` writes the new one and before `db.commit()`, and
`delete_resource` unlinks the file before `db.delete`/`db.commit()`.
Evaluated on a stored resource and a valid replacement PDF, the operation
traces are `[deleteFile old, writeFile new, commit]` and
`[deleteFile old, deleteRow, commit]`. -/
theorem resource_file_ordering_traces :
    (update_resource 1 none none (some ⟨some "new.pdf", "application/pdf", [37, 80, 68, 70]⟩)
        defaultSettings "guid"
        [⟨1, "Guide", ResourceLevel.BEGINNER, "uploads/old.pdf", some 4⟩]
        ["uploads/old.pdf"]).2.2.2 =
      [FileOp.deleteFile "uploads/old.pdf", FileOp.writeFile "uploads/guid.pdf",
        FileOp.commitRow] ∧
    (delete_resource 1
        [⟨1, "Guide", ResourceLevel.BEGINNER, "uploads/old.pdf", some 4⟩]
        ["uploads/old.pdf"]).2.2.2 =
      [FileOp.deleteFile "uploads/old.pdf", FileOp.deleteRow 1, FileOp.commitRow] := by
  constructor <;> decide

theorem mem_insertByDateDesc {e a : EventRow} {l : List EventRow} :
    a ∈ insertByDateDesc e l ↔ a = e ∨ a ∈ l := by
  induction l with
  | nil => simp [insertByDateDesc]
  | cons x xs ih =>
    simp only [insertByDateDesc]
    by_cases h : x.date ≤ e.date
    · rw [if_pos h]
      simp [List.mem_cons]
    · rw [if_neg h]
      simp only [List.mem_cons, ih]
      tauto

theorem mem_sortByDateDesc {a : EventRow} {l : List EventRow} :
    a ∈ sortByDateDesc l ↔ a ∈ l := by
  induction l with
  | nil => simp [sortByDateDesc]
  | cons x xs ih =>
    simp only [sortByDateDesc, mem_insertByDateDesc, List.mem_cons, ih]

theorem find?_map_of_pred_inv {α : Type} (f : α → α) (p : α → Bool)
    (hf : ∀ x, p (f x) = p x) :
    ∀ l : List α, (l.map f).find? p = (l.find? p).map f := by
  intro l
  induction l with
  | nil => simp
  | cons x xs ih =>
    cases hp : p x
    · rw [List.map_cons, List.find?_cons_of_neg _ (by simp [hf, hp]),
        List.find?_cons_of_neg _ (by simp [hp]), ih]
    · rw [List.map_cons, List.find?_cons_of_pos _ (by simp [hf, hp]),
        List.find?_cons_of_pos _ (by simp [hp])]
      simp

/-- C7 counterexample: the claim says a soft-deleted event no longer
appears in the default listing (no query filters).  `get_events` adds an
`is_active` filter only when the query parameter is supplied, so after
`delete_event` the event — now `is_active = false` — is still a member of
`get_events none none`. -/
theorem event_soft_delete_listing_cex :
    (delete_event 0 (DB.mk [⟨0, "E", EventType.WORKSHOP, 5, none, true⟩] [] [] [] [])).2 =
      DB.mk [⟨0, "E", EventType.WORKSHOP, 5, none, false⟩] [] [] [] [] ∧
    ⟨0, "E", EventType.WORKSHOP, 5, none, false⟩ ∈
      get_events none none
        (DB.mk [⟨0, "E", EventType.WORKSHOP, 5, none, false⟩] [] [] [] []) := by
  exact ⟨by decide, by decide⟩

/-- C7 (amended): after soft deletion the event *still appears* in the
default listing (which applies no `is_active` filter) with
`is_active = false`; it is excluded from the listing filtered by
`is_active = true`; and a direct fetch by identifier returns it with
`is_active = false`. -/
theorem event_soft_delete_visibility (db : DB) (eid : Nat) (e : EventRow)
    (hfind : db.events.find? (fun x => x.id == eid) = some e) :
    ∃ db1, delete_event eid db = (Except.ok (), db1) ∧
      { e with is_active := false } ∈ get_events none none db1 ∧
      { e with is_active := false } ∉ get_events none (some true) db1 ∧
      get_event eid db1 = Except.ok { e with is_active := false } ∧
      ({ e with is_active := false } : EventRow).is_active = false := by
  have hpe0 := List.find?_some hfind
  have hpe : e.id = eid := by simpa using hpe0
  have hmem : e ∈ db.events := List.mem_of_find?_eq_some hfind
  refine ⟨(delete_event eid db).2, ?_, ?_, ?_, ?_, rfl⟩
  · simp [delete_event, hfind]
  · simp only [delete_event, hfind, get_events]
    rw [mem_sortByDateDesc]
    have : ({ e with is_active := false } : EventRow) =
        (fun x => if x.id == eid then { x with is_active := false } else x) e := by
      simp [hpe]
    rw [this]
    exact List.mem_map_of_mem _ hmem
  · simp only [delete_event, hfind, get_events]
    rw [mem_sortByDateDesc]
    intro hcontra
    have := (List.mem_filter.mp hcontra).2
    simp at this
  · simp only [delete_event, hfind, get_event]
    rw [find?_map_of_pred_inv _ _ (fun x => by by_cases hx : x.id == eid <;> simp [hx]),
      hfind]
    simp [hpe]

/-- C7 witness: one active event; soft-delete it and observe all three
visibility facts. -/
theorem event_soft_delete_visibility_witness :
    (DB.mk [⟨3, "W", EventType.SEMINAR, 9, none, true⟩] [] [] [] []).events.find?
        (fun x => x.id == 3) = some ⟨3, "W", EventType.SEMINAR, 9, none, true⟩ ∧
    ∃ db1, delete_event 3 (DB.mk [⟨3, "W", EventType.SEMINAR, 9, none, true⟩] [] [] [] []) =
        (Except.ok (), db1) ∧
      (⟨3, "W", EventType.SEMINAR, 9, none, false⟩ : EventRow) ∈ get_events none none db1 ∧
      (⟨3, "W", EventType.SEMINAR, 9, none, false⟩ : EventRow) ∉ get_events none (some true) db1 ∧
      get_event 3 db1 = Except.ok (⟨3, "W", EventType.SEMINAR, 9, none, false⟩ : EventRow) ∧
      (⟨3, "W", EventType.SEMINAR, 9, none, false⟩ : EventRow).is_active = false :=
  ⟨by decide,
    event_soft_delete_visibility
      (DB.mk [⟨3, "W", EventType.SEMINAR, 9, none, true⟩] [] [] [] []) 3
      ⟨3, "W", EventType.SEMINAR, 9, none, true⟩ (by decide)⟩

/-- C9 counterexample: an event-*update* request whose date is in the
past does not always raise `ValidationError` — when the target event does
not exist, `update_event` raises `NotFoundError` (404) before the date is
ever examined. -/
theorem event_past_date_cex :
    update_event (fun s => s) 99 ⟨none, none, some 0, none, none⟩ 10
        (DB.mk [] [] [] [] []) =
      (Except.error (notFoundError "Event" (toString (99 : Nat))), DB.mk [] [] [] [] []) ∧
    notFoundError "Event" (toString (99 : Nat)) ≠
      validationError "Event date cannot be in the past" := by
  exact ⟨rfl, by decide⟩

/-- C9 (amended): for event creation, and for event updates whose target
exists, a date strictly before today is rejected with the 422
`ValidationError` `"Event date cannot be in the past"` and nothing is
persisted, while a date on or after today is accepted (the row is
written with that date); an update of a nonexistent event fails with
`NotFoundError` instead. -/
theorem event_past_date_validation (st : String → String)
    (dataPast dataOk : EventCreate) (udPast udOk : EventUpdate) (today : Int)
    (n1 n2 eid : Nat) (db : DB) (e : EventRow) (dPast dOk : Int)
    (hp : dataPast.date < today) (hok : today ≤ dataOk.date)
    (hfind : db.events.find? (fun x => x.id == eid) = some e)
    (hud1 : udPast.date = some dPast) (hdp : dPast < today)
    (hud2 : udOk.date = some dOk) (hdo : today ≤ dOk) :
    create_event st dataPast today n1 db =
      (Except.error (validationError "Event date cannot be in the past"), db) ∧
    (∃ ev, create_event st dataOk today n2 db =
        (Except.ok (ev, 201), { db with events := db.events ++ [ev] }) ∧
      ev.date = dataOk.date ∧ ev.is_active = true) ∧
    update_event st eid udPast today db =
      (Except.error (validationError "Event date cannot be in the past"), db) ∧
    (∃ ev db1, update_event st eid udOk today db = (Except.ok ev, db1) ∧ ev.date = dOk) ∧
    (validationError "Event date cannot be in the past").status = 422 ∧
    (validationError "Event date cannot be in the past").code = "VALIDATION_ERROR" := by
  refine ⟨?_, ?_, ?_, ?_, rfl, rfl⟩
  · simp only [create_event]
    rw [if_pos hp]
  · simp only [create_event]
    rw [if_neg (not_lt.mpr hok)]
    exact ⟨_, rfl, rfl, rfl⟩
  · simp only [update_event, hfind, hud1]
    rw [if_pos (by simpa using hdp)]
  · simp only [update_event, hfind, hud2]
    rw [if_neg (by simpa using not_lt.mpr hdo)]
    refine ⟨_, _, rfl, ?_⟩
    rcases udOk with ⟨ut, uty, ud, udesc, uact⟩
    cases udesc <;> cases uact <;> rfl

/-- C9 witness: today = 10; creation with dates 5 (rejected) and 10
(accepted); updates of an existing event with dates 5 (rejected) and 12
(accepted). -/
theorem event_past_date_validation_witness :
    ((⟨"T", EventType.LECTURE, 5, none⟩ : EventCreate).date < 10 ∧
     (10 : Int) ≤ (⟨"T", EventType.LECTURE, 10, none⟩ : EventCreate).date) ∧
    create_event (fun s => s) ⟨"T", EventType.LECTURE, 5, none⟩ 10 1
        (DB.mk [⟨3, "W", EventType.SEMINAR, 9, none, true⟩] [] [] [] []) =
      (Except.error (validationError "Event date cannot be in the past"),
        DB.mk [⟨3, "W", EventType.SEMINAR, 9, none, true⟩] [] [] [] []) ∧
    update_event (fun s => s) 3 ⟨none, none, some 5, none, none⟩ 10
        (DB.mk [⟨3, "W", EventType.SEMINAR, 9, none, true⟩] [] [] [] []) =
      (Except.error (validationError "Event date cannot be in the past"),
        DB.mk [⟨3, "W", EventType.SEMINAR, 9, none, true⟩] [] [] [] []) ∧
    (∃ ev db1, update_event (fun s => s) 3 ⟨none, none, some 12, none, none⟩ 10
        (DB.mk [⟨3, "W", EventType.SEMINAR, 9, none, true⟩] [] [] [] []) =
      (Except.ok ev, db1) ∧ ev.date = 12) := by
  have h := event_past_date_validation (fun s => s)
    ⟨"T", EventType.LECTURE, 5, none⟩ ⟨"T", EventType.LECTURE, 10, none⟩
    ⟨none, none, some 5, none, none⟩ ⟨none, none, some 12, none, none⟩ 10 1 2 3
    (DB.mk [⟨3, "W", EventType.SEMINAR, 9, none, true⟩] [] [] [] [])
    ⟨3, "W", EventType.SEMINAR, 9, none, true⟩ 5 12
    (by decide) (by decide) (by decide) rfl (by decide) rfl (by decide)
  exact ⟨⟨by decide, by decide⟩, h.1, h.2.2.1, h.2.2.2.1⟩

theorem sanitize_string_eval (s : String) (n : Option Nat) (h : tagFree s.toList = true) :
    sanitize_string s n = (sanitizeCharsNoClean s.toList n).asString := by
  unfold sanitize_string
  rw [sanitizeChars_of_tagFree _ _ h]

/-- C5: a hackathon-team creation request without exactly 4 members, or
without exactly one leader among them, is rejected by the schema with the
422 `VALIDATION_ERROR` envelope before the handler runs, and the
database — in particular both the team and team-member tables — is
unchanged. -/
theorem hackathon_team_structural_rejection (data : HackathonTeamCreate)
    (newTeamId : Nat) (memberIds : List Nat) (db : DB)
    (h : data.team_members.length ≠ 4 ∨
      (data.team_members.filter (fun m => m.is_leader)).length ≠ 1) :
    post_hackathon_team data newTeamId memberIds db =
      (Except.error (validationError "Validation error"), db) ∧
    (validationError "Validation error").status = 422 ∧
    (validationError "Validation error").code = "VALIDATION_ERROR" := by
  have hD : (if data.team_members.length ≠ 4 then ["Team must have exactly 4 members"]
      else if (data.team_members.filter (fun m => m.is_leader)).length ≠ 1 then
        ["Team must have exactly 1 leader"]
      else ([] : List String)) ≠ [] := by
    rcases h with h | h
    · rw [if_pos h]
      simp
    · by_cases h4 : data.team_members.length ≠ 4
      · rw [if_pos h4]
        simp
      · rw [if_neg h4, if_pos h]
        simp
  have hne : hackathonTeamCreateErrors data ≠ [] := by
    intro hcontra
    unfold hackathonTeamCreateErrors at hcontra
    simp only [List.append_eq_nil] at hcontra
    exact hD (by tauto)
  have hE : ¬ ((hackathonTeamCreateErrors data).isEmpty = true) := by
    intro hT
    exact hne (List.isEmpty_iff.mp hT)
  refine ⟨?_, rfl, rfl⟩
  unfold post_hackathon_team
  rw [if_neg hE]

/-- C5 witness: a 3-member team (also checking a 4-member, 2-leader team
through the same theorem at a second input would reuse the theorem; the
3-member case discharges the hypothesis here). -/
theorem hackathon_team_structural_rejection_witness :
    (([⟨"A", "a@x.com", "12345678", "1", "A", "IT", "SE", "1234567890", true⟩,
        ⟨"B", "b@x.com", "12345679", "2", "A", "IT", "SE", "1234567891", false⟩,
        ⟨"C", "c@x.com", "12345680", "3", "A", "IT", "SE", "1234567892", false⟩]
        : List TeamMemberBase).length ≠ 4 ∨
      (([⟨"A", "a@x.com", "12345678", "1", "A", "IT", "SE", "1234567890", true⟩,
        ⟨"B", "b@x.com", "12345679", "2", "A", "IT", "SE", "1234567891", false⟩,
        ⟨"C", "c@x.com", "12345680", "3", "A", "IT", "SE", "1234567892", false⟩]
        : List TeamMemberBase).filter (fun m => m.is_leader)).length ≠ 1) ∧
    post_hackathon_team
      ⟨"HackX", "TeamX",
        [⟨"A", "a@x.com", "12345678", "1", "A", "IT", "SE", "1234567890", true⟩,
         ⟨"B", "b@x.com", "12345679", "2", "A", "IT", "SE", "1234567891", false⟩,
         ⟨"C", "c@x.com", "12345680", "3", "A", "IT", "SE", "1234567892", false⟩]⟩
      10 [1, 2, 3] (DB.mk [] [] [] [] []) =
      (Except.error (validationError "Validation error"), DB.mk [] [] [] [] []) :=
  ⟨Or.inl (by decide),
    (hackathon_team_structural_rejection
      ⟨"HackX", "TeamX",
        [⟨"A", "a@x.com", "12345678", "1", "A", "IT", "SE", "1234567890", true⟩,
         ⟨"B", "b@x.com", "12345679", "2", "A", "IT", "SE", "1234567891", false⟩,
         ⟨"C", "c@x.com", "12345680", "3", "A", "IT", "SE", "1234567892", false⟩]⟩
      10 [1, 2, 3] (DB.mk [] [] [] [] []) (Or.inl (by decide))).1⟩

/-- C10: in every successfully created hackathon team, every team-member
row that the call persisted carries the lower-cased email and the
upper-cased division of the corresponding request member. -/
theorem hackathon_team_member_normalization (data : HackathonTeamCreate)
    (newTeamId : Nat) (memberIds : List Nat) (db : DB) (team : TeamRow) (db1 : DB)
    (hok : post_hackathon_team data newTeamId memberIds db = (Except.ok (team, 201), db1)) :
    ∀ mr ∈ db1.team_members, mr ∈ db.team_members ∨
      ∃ m ∈ data.team_members,
        mr.email = pyLower m.email ∧ mr.division = pyUpper m.division := by
  by_cases hE : (hackathonTeamCreateErrors data).isEmpty = true
  · unfold post_hackathon_team at hok
    rw [if_pos hE] at hok
    simp only [create_hackathon_team] at hok
    by_cases hc : db.teams.any (fun t =>
        t.event_name == data.event_name &&
        t.team_name == sanitize_string data.team_name (some 100)) = true
    · exfalso
      rw [if_pos hc] at hok
      exact Except.noConfusion (congrArg Prod.fst hok)
    · rw [if_neg hc] at hok
      have hdb1 := congrArg Prod.snd hok
      dsimp only at hdb1
      subst hdb1
      intro mr hmr
      dsimp only at hmr
      simp only [List.mem_append, List.mem_map] at hmr
      rcases hmr with hold | hnew
      · exact Or.inl hold
      · right
        obtain ⟨p, hp, hmk⟩ := hnew
        have hm : p.1 ∈ data.team_members := (List.of_mem_zip hp).1
        exact ⟨p.1, hm, by rw [← hmk], by rw [← hmk]⟩
  · exfalso
    unfold post_hackathon_team at hok
    rw [if_neg hE] at hok
    exact Except.noConfusion (congrArg Prod.fst hok)

/-- C10 witness: a fully valid 4-member team with mixed-case emails and
lower-case divisions; the persisted members carry the normalized
values. -/
theorem hackathon_team_member_normalization_witness :
    ∃ team db1,
      post_hackathon_team
        ⟨"HackX", "TeamX",
          [⟨"A", "A@X.com", "12345678", "1", "a", "IT", "SE", "1234567890", true⟩,
           ⟨"B", "b@x.com", "12345679", "2", "b", "IT", "SE", "1234567891", false⟩,
           ⟨"C", "c@X.com", "12345680", "3", "a", "IT", "SE", "1234567892", false⟩,
           ⟨"D", "d@x.com", "12345681", "4", "b", "IT", "SE", "1234567893", false⟩]⟩
        10 [1, 2, 3, 4] (DB.mk [] [] [] [] []) = (Except.ok (team, 201), db1) ∧
      ∀ mr ∈ db1.team_members, mr ∈ (DB.mk [] [] [] [] []).team_members ∨
        ∃ m ∈ ([⟨"A", "A@X.com", "12345678", "1", "a", "IT", "SE", "1234567890", true⟩,
           ⟨"B", "b@x.com", "12345679", "2", "b", "IT", "SE", "1234567891", false⟩,
           ⟨"C", "c@X.com", "12345680", "3", "a", "IT", "SE", "1234567892", false⟩,
           ⟨"D", "d@x.com", "12345681", "4", "b", "IT", "SE", "1234567893", false⟩]
           : List TeamMemberBase),
          mr.email = pyLower m.email ∧ mr.division = pyUpper m.division := by
  have hs : sanitize_string "TeamX" (some 100) = "TeamX" := by
    rw [sanitize_string_eval _ _ (by decide)]
    decide
  have hok : post_hackathon_team
      ⟨"HackX", "TeamX",
        [⟨"A", "A@X.com", "12345678", "1", "a", "IT", "SE", "1234567890", true⟩,
         ⟨"B", "b@x.com", "12345679", "2", "b", "IT", "SE", "1234567891", false⟩,
         ⟨"C", "c@X.com", "12345680", "3", "a", "IT", "SE", "1234567892", false⟩,
         ⟨"D", "d@x.com", "12345681", "4", "b", "IT", "SE", "1234567893", false⟩]⟩
      10 [1, 2, 3, 4] (DB.mk [] [] [] [] []) =
      (Except.ok ((⟨10, "HackX", "TeamX"⟩ : TeamRow), 201),
        (post_hackathon_team
          ⟨"HackX", "TeamX",
            [⟨"A", "A@X.com", "12345678", "1", "a", "IT", "SE", "1234567890", true⟩,
             ⟨"B", "b@x.com", "12345679", "2", "b", "IT", "SE", "1234567891", false⟩,
             ⟨"C", "c@X.com", "12345680", "3", "a", "IT", "SE", "1234567892", false⟩,
             ⟨"D", "d@x.com", "12345681", "4", "b", "IT", "SE", "1234567893", false⟩]⟩
          10 [1, 2, 3, 4] (DB.mk [] [] [] [] [])).2) := by
    unfold post_hackathon_team create_hackathon_team
    rw [hs]
    rw [if_pos (by decide), if_neg (by decide)]
  exact ⟨_, _, hok,
    hackathon_team_member_normalization _ 10 [1, 2, 3, 4] (DB.mk [] [] [] [] []) _ _ hok⟩

theorem validate_pdf_file_ext_fail (f : UploadFileM) (h : extCheck f = false) :
    validate_pdf_file f = (false, some "File must be a PDF (.pdf extension required)") := by
  unfold validate_pdf_file
  cases hf : f.filename with
  | none => rfl
  | some fn =>
    rw [extCheck, hf] at h
    have hcond : fn = "" ∨ ¬ (pyEndsWith (pyLower fn) ".pdf" = true) := by
      by_cases h1 : fn = ""
      · exact Or.inl h1
      · refine Or.inr fun h2 => ?_
        simp [h1, h2] at h
    dsimp only
    rw [if_pos hcond]

theorem validate_pdf_file_ctype_fail (f : UploadFileM) (h : extCheck f = true)
    (hc : f.content_type ≠ "application/pdf") :
    validate_pdf_file f = (false, some "File must be of type application/pdf") := by
  unfold validate_pdf_file
  cases hf : f.filename with
  | none => rw [extCheck, hf] at h; exact absurd h (by simp)
  | some fn =>
    rw [extCheck, hf] at h
    have h1 : ¬(fn = "" ∨ ¬ (pyEndsWith (pyLower fn) ".pdf" = true)) := by
      simp only [Bool.and_eq_true, bne_iff_ne] at h
      push_neg
      exact ⟨h.1, h.2⟩
    dsimp only
    rw [if_neg h1, if_pos hc]

theorem validate_pdf_file_passes (f : UploadFileM) (h : extCheck f = true)
    (hc : f.content_type = "application/pdf") :
    validate_pdf_file f = (true, none) := by
  unfold validate_pdf_file
  cases hf : f.filename with
  | none => rw [extCheck, hf] at h; exact absurd h (by simp)
  | some fn =>
    rw [extCheck, hf] at h
    have h1 : ¬(fn = "" ∨ ¬ (pyEndsWith (pyLower fn) ".pdf" = true)) := by
      simp only [Bool.and_eq_true, bne_iff_ne] at h
      push_neg
      exact ⟨h.1, h.2⟩
    dsimp only
    rw [if_neg h1, if_neg (by simp [hc])]

/-- C4: the upload pipeline of `create_resource` checks, in order and
short-circuiting on the first failure: filename extension
(case-insensitive `.pdf`, HTTP 400), declared content type
(`application/pdf`, HTTP 400), byte length against the configured
ceiling (HTTP 413; the default configuration is 10 MiB), and finally the
`%PDF` 4-byte signature (HTTP 400); when all pass, the resource is
stored.  The signature check is exactly "the first 4 bytes equal
`%PDF`". -/
theorem pdf_upload_validation_order (title : String) (level : ResourceLevel)
    (f : UploadFileM) (s : SettingsM) (newName : String) (newId : Nat) (db : DB) :
    (extCheck f = false →
      create_resource title level f s newName newId db =
        (Except.error (badRequestError "File must be a PDF (.pdf extension required)"), db) ∧
      (badRequestError "File must be a PDF (.pdf extension required)").status = 400) ∧
    (extCheck f = true → f.content_type ≠ "application/pdf" →
      create_resource title level f s newName newId db =
        (Except.error (badRequestError "File must be of type application/pdf"), db) ∧
      (badRequestError "File must be of type application/pdf").status = 400) ∧
    (extCheck f = true → f.content_type = "application/pdf" →
      f.content.length > s.max_file_size_bytes →
      create_resource title level f s newName newId db =
        (Except.error (payloadTooLargeError ("File size exceeds maximum allowed size of "
          ++ toString s.max_file_size_mb ++ "MB")), db) ∧
      (payloadTooLargeError ("File size exceeds maximum allowed size of "
        ++ toString s.max_file_size_mb ++ "MB")).status = 413) ∧
    (extCheck f = true → f.content_type = "application/pdf" →
      f.content.length ≤ s.max_file_size_bytes →
      validate_pdf_magic_bytes f.content = false →
      create_resource title level f s newName newId db =
        (Except.error (badRequestError "File is not a valid PDF"), db) ∧
      (badRequestError "File is not a valid PDF").status = 400) ∧
    (extCheck f = true → f.content_type = "application/pdf" →
      f.content.length ≤ s.max_file_size_bytes →
      validate_pdf_magic_bytes f.content = true →
      ∃ r : ResourceRow, create_resource title level f s newName newId db =
        (Except.ok (r, 201), { db with resources := db.resources ++ [r] })) ∧
    (validate_pdf_magic_bytes f.content = true ↔ f.content.take 4 = pdfMagic) ∧
    defaultSettings.max_file_size_bytes = 10 * 1024 * 1024 := by
  refine ⟨?_, ?_, ?_, ?_, ?_, ?_, rfl⟩
  · intro h
    refine ⟨?_, rfl⟩
    unfold create_resource
    rw [validate_pdf_file_ext_fail f h]
    rfl
  · intro h hc
    refine ⟨?_, rfl⟩
    unfold create_resource
    rw [validate_pdf_file_ctype_fail f h hc]
    rfl
  · intro h hc hsz
    refine ⟨?_, rfl⟩
    unfold create_resource
    rw [validate_pdf_file_passes f h hc]
    unfold save_pdf_file
    dsimp only
    rw [if_pos hsz]
  · intro h hc hsz hsig
    refine ⟨?_, rfl⟩
    unfold create_resource
    rw [validate_pdf_file_passes f h hc]
    unfold save_pdf_file
    dsimp only
    rw [if_neg (not_lt.mpr hsz), if_pos (by simp [hsig])]
  · intro h hc hsz hsig
    unfold create_resource
    rw [validate_pdf_file_passes f h hc]
    unfold save_pdf_file
    dsimp only
    rw [if_neg (not_lt.mpr hsz), if_neg (by simp [hsig])]
    exact ⟨_, rfl⟩
  · unfold validate_pdf_magic_bytes
    constructor
    · intro hv
      by_cases h4 : f.content.length < 4
      · rw [if_pos h4] at hv
        exact absurd hv (by simp)
      · rw [if_neg h4] at hv
        by_cases hm : f.content.take 4 ≠ pdfMagic
        · rw [if_pos hm] at hv
          exact absurd hv (by simp)
        · exact not_not.mp hm
    · intro hm
      have h4 : ¬ f.content.length < 4 := by
        intro hlt
        have := congrArg List.length hm
        rw [List.length_take] at this
        simp [pdfMagic] at this
        omega
      rw [if_neg h4, if_neg (by simp [hm])]

/-- C4 witness: five concrete uploads, one per branch — bad extension,
bad content type, oversize (ceiling configured to 0 MB), bad signature,
and a fully valid 4-byte PDF — plus the signature characterization and
the 10 MiB default. -/
theorem pdf_upload_validation_order_witness :
    create_resource "Guide" ResourceLevel.BEGINNER
        ⟨some "evil.txt", "application/pdf", [37, 80, 68, 70]⟩ ⟨10⟩ "g1" 1
        (DB.mk [] [] [] [] []) =
      (Except.error (badRequestError "File must be a PDF (.pdf extension required)"),
        DB.mk [] [] [] [] []) ∧
    create_resource "Guide" ResourceLevel.BEGINNER
        ⟨some "a.pdf", "text/plain", [37, 80, 68, 70]⟩ ⟨10⟩ "g2" 2
        (DB.mk [] [] [] [] []) =
      (Except.error (badRequestError "File must be of type application/pdf"),
        DB.mk [] [] [] [] []) ∧
    create_resource "Guide" ResourceLevel.BEGINNER
        ⟨some "a.pdf", "application/pdf", [0]⟩ ⟨0⟩ "g3" 3 (DB.mk [] [] [] [] []) =
      (Except.error (payloadTooLargeError ("File size exceeds maximum allowed size of "
        ++ toString (0 : Nat) ++ "MB")), DB.mk [] [] [] [] []) ∧
    create_resource "Guide" ResourceLevel.BEGINNER
        ⟨some "a.pdf", "application/pdf", [0, 0, 0, 0]⟩ ⟨10⟩ "g4" 4
        (DB.mk [] [] [] [] []) =
      (Except.error (badRequestError "File is not a valid PDF"), DB.mk [] [] [] [] []) ∧
    (∃ r : ResourceRow, create_resource "Guide" ResourceLevel.BEGINNER
        ⟨some "a.pdf", "application/pdf", [37, 80, 68, 70]⟩ ⟨10⟩ "g5" 5
        (DB.mk [] [] [] [] []) =
      (Except.ok (r, 201),
        { DB.mk [] [] [] [] [] with resources := (DB.mk [] [] [] [] []).resources ++ [r] })) ∧
    defaultSettings.max_file_size_bytes = 10 * 1024 * 1024 :=
  ⟨((pdf_upload_validation_order "Guide" ResourceLevel.BEGINNER
      ⟨some "evil.txt", "application/pdf", [37, 80, 68, 70]⟩ ⟨10⟩ "g1" 1
      (DB.mk [] [] [] [] [])).1 (by decide)).1,
   ((pdf_upload_validation_order "Guide" ResourceLevel.BEGINNER
      ⟨some "a.pdf", "text/plain", [37, 80, 68, 70]⟩ ⟨10⟩ "g2" 2
      (DB.mk [] [] [] [] [])).2.1 (by decide) (by decide)).1,
   ((pdf_upload_validation_order "Guide" ResourceLevel.BEGINNER
      ⟨some "a.pdf", "application/pdf", [0]⟩ ⟨0⟩ "g3" 3
      (DB.mk [] [] [] [] [])).2.2.1 (by decide) rfl (by decide)).1,
   ((pdf_upload_validation_order "Guide" ResourceLevel.BEGINNER
      ⟨some "a.pdf", "application/pdf", [0, 0, 0, 0]⟩ ⟨10⟩ "g4" 4
      (DB.mk [] [] [] [] [])).2.2.2.1 (by decide) rfl (by decide) (by decide)).1,
   (pdf_upload_validation_order "Guide" ResourceLevel.BEGINNER
      ⟨some "a.pdf", "application/pdf", [37, 80, 68, 70]⟩ ⟨10⟩ "g5" 5
      (DB.mk [] [] [] [] [])).2.2.2.2.1 (by decide) rfl (by decide) (by decide),
   rfl⟩

end Backend
